import Mathlib

/-!
Verification of the paragliding rank-widget scraper (`pt/app.py`).

The Python program is shallowly embedded: each helper of the source file
becomes a Lean definition over explicit inputs (the network is modelled as
an explicit outcome value, the process-global caches as explicit state that
is threaded through, and the per-probe network requests of the active-task
search as an explicit trace that each function returns).  String-level
Python primitives (`str.strip`, `str.lower`, the `in` operator,
`str.replace`, `str.split`, `int(...)`, `html.escape`) are modelled over
`List Char` so that every definition evaluates by kernel reduction.
-/

namespace PT

/-! ### Python string primitives -/

/-- ASCII whitespace recognised by Python `str.strip()` / `str.split()`. -/
def isPySpace (c : Char) : Bool :=
  c == ' ' || c == '\t' || c == '\n' || c == '\r' || c == '\x0b' || c == '\x0c'

/-- Strip `isPySpace` characters from both ends of a character list. -/
def trimCharList (l : List Char) : List Char :=
  ((l.dropWhile isPySpace).reverse.dropWhile isPySpace).reverse

/-- Model of Python `str.strip()`. -/
def pyStrip (s : String) : String :=
  String.mk (trimCharList s.data)

/-- Model of Python `str.lower()` (ASCII letters). -/
def pyLowerChar (c : Char) : Char :=
  if 65 ≤ c.toNat && c.toNat ≤ 90 then Char.ofNat (c.toNat + 32) else c

/-- Model of Python `str.lower()`. -/
def pyLower (s : String) : String :=
  String.mk (s.data.map pyLowerChar)

/-- Uppercase an ASCII letter, as Python `str.capitalize()` does to the head. -/
def pyUpperChar (c : Char) : Char :=
  if 97 ≤ c.toNat && c.toNat ≤ 122 then Char.ofNat (c.toNat - 32) else c

/-- Model of Python `str.capitalize()`: first character uppercased, rest lowercased. -/
def pyCapitalize (s : String) : String :=
  match s.data with
  | [] => ""
  | c :: cs => String.mk (pyUpperChar c :: cs.map pyLowerChar)

/-- Does `l` start with `pat`? -/
def listStartsWith : List Char → List Char → Bool
  | _, [] => true
  | [], _ :: _ => false
  | c :: cs, p :: ps => c == p && listStartsWith cs ps

/-- Does `l` contain `pat` as a contiguous run?  Model of Python `pat in l`. -/
def listContainsSub (pat : List Char) : List Char → Bool
  | [] => pat.isEmpty
  | c :: cs => listStartsWith (c :: cs) pat || listContainsSub pat cs

/-- Model of the Python operator `pat in s` on strings. -/
def containsStr (s pat : String) : Bool :=
  listContainsSub pat.data s.data

/-- Model of Python `s.startswith(pre)`. -/
def pyStartsWith (s pre : String) : Bool :=
  listStartsWith s.data pre.data

/-- Fuel-bounded worker for `pyReplace`; the fuel is the input length, which
bounds the number of steps because every step consumes at least one character. -/
def replaceFuel (pat rep : List Char) : Nat → List Char → List Char
  | _, [] => []
  | 0, l => l
  | fuel + 1, c :: cs =>
    if !pat.isEmpty && listStartsWith (c :: cs) pat then
      rep ++ replaceFuel pat rep fuel (List.drop (pat.length - 1) cs)
    else
      c :: replaceFuel pat rep fuel cs

/-- Model of Python `s.replace(pat, rep)` (left-to-right, non-overlapping). -/
def pyReplace (s pat rep : String) : String :=
  String.mk (replaceFuel pat.data rep.data s.data.length s.data)

/-- Worker for `pySplit`, accumulating the current word reversed. -/
def splitWsAux : List Char → List Char → List (List Char)
  | [], acc => if acc.isEmpty then [] else [acc.reverse]
  | c :: cs, acc =>
    if isPySpace c then
      if acc.isEmpty then splitWsAux cs [] else acc.reverse :: splitWsAux cs []
    else splitWsAux cs (c :: acc)

/-- Model of Python `s.split()` (split on whitespace runs, dropping empties). -/
def pySplit (s : String) : List String :=
  (splitWsAux s.data []).map String.mk

/-- Model of Python `sep.join(parts)` for a list of strings. -/
def joinWith (sep : String) : List String → String
  | [] => ""
  | [x] => x
  | x :: y :: xs => x ++ sep ++ joinWith sep (y :: xs)

/-- Replace one character by another everywhere (Python `s.replace('-', ' ')`). -/
def pyReplaceChar (s : String) (a b : Char) : String :=
  String.mk (s.data.map fun c => if c == a then b else c)

/-- Is `c` an ASCII decimal digit? -/
def isAsciiDigit (c : Char) : Bool :=
  48 ≤ c.toNat && c.toNat ≤ 57

/-- The decimal digit character for `d` (callers pass `d < 10`). -/
def digitChar (d : Nat) : Char :=
  match d with
  | 0 => '0' | 1 => '1' | 2 => '2' | 3 => '3' | 4 => '4'
  | 5 => '5' | 6 => '6' | 7 => '7' | 8 => '8' | _ => '9'

/-- Fuel-bounded decimal digit expansion (most significant first). -/
def natDigitsAux : Nat → Nat → List Char → List Char
  | 0, _, acc => acc
  | fuel + 1, n, acc =>
    if n < 10 then digitChar n :: acc
    else natDigitsAux fuel (n / 10) (digitChar (n % 10) :: acc)

/-- Model of Python `str(...)` on a non-negative integer. -/
def natToString (n : Nat) : String :=
  String.mk (natDigitsAux (n + 1) n [])

/-- Python truthiness of a string: nonempty. -/
def strTruthy (s : String) : Bool :=
  !s.data.isEmpty

/-- Python truthiness of an optional string (`None` and `""` are falsy). -/
def optTruthy : Option String → Bool
  | none => false
  | some s => strTruthy s

/-- A single-quote character, written via its code point. -/
def squoteChar : Char := Char.ofNat 39

/-- A string holding one single-quote character. -/
def squote : String := String.mk [squoteChar]

/-- Digit-group parser for Python `int(...)`: digits with single
underscores allowed between digits. -/
def digitsValGo : List Char → Nat → Option Nat
  | [], acc => some acc
  | c :: cs, acc =>
    if isAsciiDigit c then digitsValGo cs (acc * 10 + (c.toNat - 48))
    else if c == '_' then
      match cs with
      | [] => none
      | c2 :: cs2 =>
        if isAsciiDigit c2 then digitsValGo cs2 (acc * 10 + (c2.toNat - 48)) else none
    else none

/-- Parse a nonempty ASCII digit group (with underscore separators). -/
def digitsVal : List Char → Option Nat
  | [] => none
  | c :: cs => if isAsciiDigit c then digitsValGo cs (c.toNat - 48) else none

/-- Model of Python `int(s)`: surrounding whitespace stripped, optional
sign, nonempty ASCII digit group. -/
def pyInt (s : String) : Option Int :=
  match trimCharList s.data with
  | [] => none
  | c :: cs =>
    if c == '+' then (digitsVal cs).map (fun n => (n : Int))
    else if c == '-' then (digitsVal cs).map (fun n => -(n : Int))
    else (digitsVal (c :: cs)).map (fun n => (n : Int))

/-! ### `html.escape` -/

/-- Expansion of one character under Python `html.escape` (with quoting). -/
def escapeHtmlChar (c : Char) : List Char :=
  if c == '&' then ['&', 'a', 'm', 'p', ';']
  else if c == '<' then ['&', 'l', 't', ';']
  else if c == '>' then ['&', 'g', 't', ';']
  else if c == Char.ofNat 34 then ['&', 'q', 'u', 'o', 't', ';']
  else if c == squoteChar then ['&', Char.ofNat 35, 'x', '2', '7', ';']
  else [c]

/-- Character-list worker for `htmlEscape`. -/
def escapeChars : List Char → List Char
  | [] => []
  | c :: cs => escapeHtmlChar c ++ escapeChars cs

/-- Model of Python `html.escape(s)` (quote=True, the default). -/
def htmlEscape (s : String) : String :=
  String.mk (escapeChars s.data)

/-! ### Data model -/

/-- One competition entry produced by `fetch_competitions`. -/
structure Competition where
  slug : String
  name : String
deriving DecidableEq, Repr

/-- An anchor element of the site root page: its `href` attribute and its
(`get_text`) text content. -/
structure Anchor where
  href : String
  text : String
deriving DecidableEq, Repr

/-- The active task found by `find_active_task`; the task number is stored
as a string (`str(task_num)` in the source). -/
structure ActiveTask where
  competition_slug : String
  task_number : String
deriving DecidableEq, Repr

/-- A parsed pilot row (`{'rank': ..., 'id': ..., 'name': ...}`). -/
structure ResultRow where
  rank : String
  id : String
  name : String
deriving DecidableEq, Repr

/-- One `tr` element of a result table: whether it contains a `th`
descendant, and the stripped text of its `td` cells in order. -/
structure Row where
  hasTh : Bool
  cells : List String
deriving DecidableEq, Repr

/-- One `table` element of a task page: whether it carries the `result`
CSS class, and its rows in page order. -/
structure Table where
  isResultTable : Bool
  rows : List Row
deriving DecidableEq, Repr

/-! ### Competition lister (`fetch_competitions`) -/

/-- Is `c` in the character class `[a-z0-9-]` of the slug regex? -/
def isSlugChar (c : Char) : Bool :=
  (97 ≤ c.toNat && c.toNat ≤ 122) || (48 ≤ c.toNat && c.toNat ≤ 57) || c == '-'

/-- Continuation of the slug regex after the first character: zero or more
slug characters followed by an optional terminal `/`. -/
def slugPatternRest : List Char → Bool
  | [] => true
  | ['/'] => true
  | c :: cs => isSlugChar c && slugPatternRest cs

/-- Model of the regex `^[a-z0-9\-]+/?$` used to pre-filter anchors. -/
def matchesSlugPattern (s : String) : Bool :=
  match s.data with
  | [] => false
  | c :: cs => isSlugChar c && slugPatternRest cs

/-- Model of Python `s.strip('/')`. -/
def stripSlashes (s : String) : String :=
  String.mk (((s.data.dropWhile (· == '/')).reverse.dropWhile (· == '/')).reverse)

/-- The display-name heuristic: split the link text on hyphens/whitespace,
capitalize each word, and fall back to the raw text or the capitalized slug
when the formatted name is shorter than 4 characters. -/
def formatDisplayName (name href : String) : String :=
  let formatted := joinWith " " ((pySplit (pyReplaceChar name '-' ' ')).map pyCapitalize)
  if formatted.length < 4 then
    (if name.length > 3 then name else pyCapitalize href)
  else formatted

/-- The per-anchor acceptance conditions of `fetch_competitions` that do not
depend on the already-seen slug set. -/
def anchorValid (a : Anchor) : Bool :=
  matchesSlugPattern a.href &&
    (strTruthy (stripSlashes a.href) && strTruthy (pyStrip a.text) &&
      !pyStartsWith (stripSlashes a.href) "http" &&
      decide ((stripSlashes a.href).length > 3))

/-- The anchor-scanning loop of `fetch_competitions`: `found` is the set of
slugs already collected (`found_slugs`). -/
def collect : List Anchor → List String → List Competition
  | [], _ => []
  | a :: rest, found =>
    if matchesSlugPattern a.href then
      let href := stripSlashes a.href
      let nm := pyStrip a.text
      if strTruthy href && strTruthy nm && !found.contains href &&
          !pyStartsWith href "http" && decide (href.length > 3) then
        ⟨href, formatDisplayName nm href⟩ :: collect rest (href :: found)
      else collect rest found
    else collect rest found

/-- Ordering used by `competitions.sort(key=lambda x: x['name'])`. -/
def nameLe (x y : Competition) : Prop := x.name ≤ y.name

instance : DecidableRel nameLe := fun x y =>
  inferInstanceAs (Decidable (x.name ≤ y.name))

instance : IsTotal Competition nameLe := ⟨fun a b => le_total a.name b.name⟩

instance : IsTrans Competition nameLe := ⟨fun _ _ _ h1 h2 => le_trans h1 h2⟩

/-- Outcome of the network fetch of the site root. -/
inductive RootOutcome where
  | failure
  | success (anchors : List Anchor)
deriving DecidableEq, Repr

/-- The competition list computed from a fetched root page (a Python
`list.sort` is a stable sort by the key, modelled by insertion sort). -/
def competitionsOf (anchors : List Anchor) : List Competition :=
  List.insertionSort nameLe (collect anchors [])

/-- Model of `fetch_competitions()`: takes the network outcome and the
process-global `competitions_cache`, returns the result, the new cache and
whether a network fetch was performed.  On failure the function returns `[]`
without populating the cache; on success it caches the (possibly empty)
sorted list. -/
def fetch_competitions (o : RootOutcome) (cache : Option (List Competition)) :
    List Competition × Option (List Competition) × Bool :=
  match cache with
  | some l => (l, some l, false)
  | none =>
    match o with
    | .failure => ([], none, true)
    | .success anchors =>
      let l := competitionsOf anchors
      (l, some l, true)

/-- The competition list as seen by a first (cache-cold) call. -/
def listCompetitions (o : RootOutcome) : List Competition :=
  (fetch_competitions o none).1

/-! ### Active task finder (`find_active_task`) -/

/-- Outcome of probing one task page URL. -/
inductive ProbeResult where
  | notFound
  | fetchFail
  | page (h2s : List String)
deriving DecidableEq, Repr

def MAX_TASKS_TO_CHECK : Nat := 15

def AUTO_SEARCH_CACHE_DURATION : Nat := 300

/-- Does some `h2` heading text mark task `n` as in progress?  The source
requires both `f"Task {task_num}"` and `"(IN PROGRESS)"` as substrings. -/
def taskActive (n : Nat) (h2s : List String) : Bool :=
  h2s.any fun t => containsStr t ("Task " ++ natToString n) && containsStr t "(IN PROGRESS)"

/-- The inner probing loop of `find_active_task` over a list of task
numbers for one competition.  Returns the found task (if any) and the trace
of task numbers actually probed (network requests made). -/
def scanTasksFrom (probe : Nat → ProbeResult) (slug : String) :
    List Nat → Option ActiveTask × List Nat
  | [] => (none, [])
  | n :: rest =>
    match probe n with
    | .notFound => (none, [n])
    | .fetchFail =>
      let r := scanTasksFrom probe slug rest
      (r.1, n :: r.2)
    | .page h2s =>
      if taskActive n h2s then (some ⟨slug, natToString n⟩, [n])
      else
        let r := scanTasksFrom probe slug rest
        (r.1, n :: r.2)

/-- Probe tasks `1 .. MAX_TASKS_TO_CHECK` of one competition. -/
def scanComp (probe : String → Nat → ProbeResult) (slug : String) :
    Option ActiveTask × List Nat :=
  scanTasksFrom (probe slug) slug (List.range' 1 MAX_TASKS_TO_CHECK)

/-- The outer probing loop of `find_active_task` over the competitions, in
lister order, with the trace of `(slug, task)` pairs probed. -/
def scanAll (probe : String → Nat → ProbeResult) :
    List Competition → Option ActiveTask × List (String × Nat)
  | [] => (none, [])
  | c :: cs =>
    let r := scanComp probe c.slug
    match r.1 with
    | some a => (some a, r.2.map fun n => (c.slug, n))
    | none =>
      let r2 := scanAll probe cs
      (r2.1, (r.2.map fun n => (c.slug, n)) ++ r2.2)

/-- Did probing task `n` (with a fixed competition's probe function) hit a
page whose heading marks the task as in progress? -/
def probeHitAt (probe : Nat → ProbeResult) (n : Nat) : Bool :=
  match probe n with
  | .page h2s => taskActive n h2s
  | _ => false

/-- Did probing `(c, n)` hit an in-progress page? -/
def probeHit (probe : String → Nat → ProbeResult) (c : String) (n : Nat) : Bool :=
  probeHitAt (probe c) n

/-- A concrete probe used to exercise the active-task search: task 1 fails
transiently, task 2 is the in-progress page, later tasks are 404. -/
def sampleProbe : String → Nat → ProbeResult := fun _ n =>
  if n == 1 then .fetchFail
  else if n == 2 then .page ["Task 2 (IN PROGRESS)"]
  else .notFound

/-- The process-global `active_task_cache`. -/
structure TaskCache where
  data : Option ActiveTask
  timestamp : Nat
deriving DecidableEq, Repr

/-- Model of `find_active_task()`: the freshness check requires a truthy
cached value (`if active_task_cache["data"] and ...`); an empty competition
list returns `None` without touching the cache; otherwise the full scan
runs and its outcome (including `None`) is written to the cache. -/
def find_active_task (probe : String → Nat → ProbeResult)
    (comps : List Competition) (now : Nat) (cache : TaskCache) :
    Option ActiveTask × TaskCache × List (String × Nat) :=
  if cache.data.isSome && decide (now - cache.timestamp < AUTO_SEARCH_CACHE_DURATION) then
    (cache.data, cache, [])
  else if comps.isEmpty then (none, cache, [])
  else
    match scanAll probe comps with
    | (some a, tr) => (some a, ⟨some a, now⟩, tr)
    | (none, tr) => (none, ⟨none, now⟩, tr)

/-! ### Result table parser (`fetch_and_parse_task_results`) -/

/-- Outcome of fetching a task page: a request failure (with the response
status when a response exists) or the list of tables of the fetched page. -/
inductive FetchOutcome where
  | failure (status : Option Nat)
  | page (tables : List Table)
deriving DecidableEq, Repr

/-- Result of `fetch_and_parse_task_results`: either an `"ERROR: ..."`
string or the parsed rows, exactly as the Python function returns. -/
inductive ParseOutcome where
  | err (msg : String)
  | ok (rows : List ResultRow)
deriving DecidableEq, Repr

/-- Parse one row: skip rows containing a `th`; require at least 3 cells;
take the stripped text of cells 0/1/2 and skip the row if any is empty. -/
def parseRow (r : Row) : Option ResultRow :=
  if r.hasTh then none
  else
    match r.cells with
    | c0 :: c1 :: c2 :: _ =>
      let rank := pyStrip c0
      let pid := pyStrip c1
      let pname := pyStrip c2
      if strTruthy rank && strTruthy pid && strTruthy pname then
        some ⟨rank, pid, pname⟩
      else none
    | _ => none

/-- Is `r` a valid data row (no header cell, 3+ cells, all three leading
cells nonempty after stripping)? -/
def rowValid (r : Row) : Bool :=
  !r.hasTh &&
    (match r.cells with
     | c0 :: c1 :: c2 :: _ =>
       strTruthy (pyStrip c0) && strTruthy (pyStrip c1) && strTruthy (pyStrip c2)
     | _ => false)

/-- The `ResultRow` extracted from a (valid) data row. -/
def rowData (r : Row) : ResultRow :=
  match r.cells with
  | c0 :: c1 :: c2 :: _ => ⟨pyStrip c0, pyStrip c1, pyStrip c2⟩
  | _ => ⟨"", "", ""⟩

/-- The tables of the page carrying the `result` class
(`soup.find_all('table', class_='result')`). -/
def resultTables (tables : List Table) : List Table :=
  tables.filter (·.isResultTable)

/-- Model of `fetch_and_parse_task_results(competition_slug, task_number)`,
with the network modelled by the explicit `FetchOutcome`. -/
def fetch_and_parse_task_results (competition_slug task_number : String)
    (o : FetchOutcome) : ParseOutcome :=
  match o with
  | .failure (some s) =>
    if s == 404 then
      .err ("ERROR: Task " ++ task_number ++ " page not found for competition " ++
        squote ++ competition_slug ++ squote ++ " (404).")
    else .err ("ERROR: Could not fetch data (Status: " ++ natToString s ++ ").")
  | .failure none => .err "ERROR: Could not fetch data."
  | .page tables =>
    match resultTables tables with
    | _ :: t2 :: _ =>
      let parsed := t2.rows.filterMap parseRow
      if parsed.isEmpty then .err "ERROR: No pilot data found in the results table."
      else .ok parsed
    | _ => .err "ERROR: Results table structure not found or not as expected on page."

/-! ### Widget renderer (`generate_html_page`) -/

/-- The rank colour rule of `generate_html_page`: `int(rank)` equal to 1 is
gold, 2..49 limegreen, at least 50 red, anything else (including
non-numeric ranks) keeps the default black. -/
def rank_color_of (rank : String) : String :=
  match pyInt rank with
  | none => "black"
  | some n =>
    if n == 1 then "gold"
    else if 2 ≤ n ∧ n ≤ 49 then "limegreen"
    else if 50 ≤ n then "red"
    else "black"

/-- The fixed document skeleton of `generate_html_page` with the three
computed fragments spliced in. -/
def renderSkeleton (title context_html content : String) : String :=
  "<!DOCTYPE html><html lang=\"en\"><head><meta charset=\"UTF-8\"><meta name=\"viewport\" content=\"width=device-width, initial-scale=1.0\"><title>" ++
  title ++
  "</title><style>html, body \x7b height: 100%; margin: 0; padding: 0; font-family: sans-serif; background-color: transparent; position: relative; overflow: hidden; \x7d body \x7b display: flex; justify-content: center; align-items: center; text-align: center; \x7d #context-info \x7b position: absolute; top: 10px; left: 50%; transform: translateX(-50%); font-size: 2.5vh; color: black; white-space: nowrap; z-index: 10; \x7d #rank-display \x7b font-size: 45vh; font-weight: bold; line-height: 1; text-shadow: 1px 1px 3px rgba(0, 0, 0, 0.5); z-index: 1; \x7d #error-display \x7b font-size: 5vh; color: #eee; max-width: 80%; background-color: rgba(0, 0, 0, 0.6); padding: 15px; border-radius: 8px; text-shadow: 1px 1px 2px rgba(0, 0, 0, 0.7); z-index: 1; \x7d</style></head><body>" ++
  context_html ++ content ++ "</body></html>"

/-- Model of `generate_html_page(rank, error, competition_display_name,
task_number)`; all four arguments default to `None` in the source. -/
def generate_html_page (rank error competition_display_name task_number : Option String) :
    String :=
  let comp_s := competition_display_name.getD ""
  let task_s := task_number.getD ""
  let context_html :=
    if optTruthy competition_display_name && optTruthy task_number then
      "<div id=\"context-info\">" ++ htmlEscape comp_s ++ " - Task " ++ htmlEscape task_s ++ "</div>"
    else ""
  let rank_s := rank.getD ""
  if optTruthy rank then
    let rank_color := rank_color_of rank_s
    let content :=
      "<div id=\"rank-display\" style=\"color: " ++ rank_color ++ ";\">" ++
        htmlEscape rank_s ++ "</div>"
    let title :=
      if context_html ≠ "" then
        "Rank " ++ htmlEscape rank_s ++ " - " ++ htmlEscape comp_s ++ " T" ++ htmlEscape task_s
      else "Rank: " ++ htmlEscape rank_s
    renderSkeleton title context_html content
  else if optTruthy error then
    renderSkeleton "Error" context_html
      ("<div id=\"error-display\">" ++ htmlEscape (error.getD "") ++ "</div>")
  else
    renderSkeleton "Error" context_html "<div id=\"error-display\">No data available.</div>"

/-- The renderer with all user-influenced fragments already escaped: the
same branching and the same skeleton, but no escaping applied to its
arguments; the rank colour is passed in. -/
def assemble_page (rank_color : String)
    (rank error competition_display_name task_number : Option String) : String :=
  let comp_s := competition_display_name.getD ""
  let task_s := task_number.getD ""
  let context_html :=
    if optTruthy competition_display_name && optTruthy task_number then
      "<div id=\"context-info\">" ++ comp_s ++ " - Task " ++ task_s ++ "</div>"
    else ""
  let rank_s := rank.getD ""
  if optTruthy rank then
    let content :=
      "<div id=\"rank-display\" style=\"color: " ++ rank_color ++ ";\">" ++ rank_s ++ "</div>"
    let title :=
      if context_html ≠ "" then
        "Rank " ++ rank_s ++ " - " ++ comp_s ++ " T" ++ task_s
      else "Rank: " ++ rank_s
    renderSkeleton title context_html content
  else if optTruthy error then
    renderSkeleton "Error" context_html
      ("<div id=\"error-display\">" ++ error.getD "" ++ "</div>")
  else
    renderSkeleton "Error" context_html "<div id=\"error-display\">No data available.</div>"

/-! ### Rank lookup and the `/get_rank` handler -/

/-- The two search modes of the pilot lookup loop. -/
inductive SearchMode where
  | byId
  | byName
deriving DecidableEq, Repr

/-- The per-row match condition of the lookup loop: exact id equality, or
case-insensitive whitespace-trimmed name equality. -/
def rowMatches (mode : SearchMode) (value : String) (p : ResultRow) : Bool :=
  match mode with
  | .byId => p.id == value
  | .byName => pyLower (pyStrip p.name) == pyLower (pyStrip value)

/-- The lookup loop of `handle_form_submission_rank`: linear scan in row
order, first match wins. -/
def findRank (rows : List ResultRow) (mode : SearchMode) (value : String) :
    Option ResultRow :=
  rows.find? (rowMatches mode value)

/-- The query parameters of a `/get_rank` request (raw, before `.strip()`). -/
structure RankRequest where
  competition : String
  task : String
  pilot_id : String
  pilot_name : String
deriving DecidableEq, Repr

/-- The collaborators of one `/get_rank` request: the result of the
`find_active_task()` call, the network outcome of the task-page fetch, and
the process-global `competitions_cache`. -/
structure RankEnv where
  activeTask : Option ActiveTask
  fetchOutcome : FetchOutcome
  competitionsCache : Option (List Competition)

/-- The HTTP response of the handler: status, HTML body, and whether/with
which value `set_cookie` was called (`none` models Python `None`). -/
structure RankResponse where
  status : Nat
  body : String
  cookieSet : Bool
  cookieValue : Option String

/-- Search criteria derivation: pilot id takes precedence, then pilot
name; neither present means the request fails validation (400). -/
def searchSpec (req : RankRequest) : Option (SearchMode × String) :=
  if strTruthy (pyStrip req.pilot_id) then some (.byId, pyStrip req.pilot_id)
  else if strTruthy (pyStrip req.pilot_name) then some (.byName, pyStrip req.pilot_name)
  else none

/-- Competition/task resolution: manual parameters when both are present,
otherwise the result of the active-task search. -/
def resolveTarget (req : RankRequest) (env : RankEnv) : Option (String × String) :=
  if strTruthy (pyStrip req.competition) && strTruthy (pyStrip req.task) then
    some (pyStrip req.competition, pyStrip req.task)
  else
    match env.activeTask with
    | some a => some (a.competition_slug, a.task_number)
    | none => none

/-- Display-name lookup in the competitions cache, falling back to the
slug. -/
def displayNameFor (cache : Option (List Competition)) (slug : String) : String :=
  match cache with
  | none => slug
  | some comps =>
    match comps.find? (fun c => c.slug == slug) with
    | some c => c.name
    | none => slug

/-- The error-to-status mapping of the handler:
`404 if "not found" in results_data.lower() else 500`. -/
def rank_error_status (msg : String) : Nat :=
  if containsStr (pyLower msg) "not found" then 404 else 500

/-- Model of the `/get_rank` route `handle_form_submission_rank`. -/
def handle_form_submission_rank (req : RankRequest) (env : RankEnv) : RankResponse :=
  match searchSpec req with
  | none =>
    { status := 400
      body := generate_html_page none (some "Pilot ID or Pilot Name must be provided from form.") none none
      cookieSet := false, cookieValue := none }
  | some (search_mode, search_value) =>
    match resolveTarget req env with
    | none =>
      { status := 404
        body := generate_html_page none (some "Could not automatically find an active task. Please use Manual Selection on the form.") none none
        cookieSet := false, cookieValue := none }
    | some (comp_to_use, task_to_use) =>
      let competition_display_name := displayNameFor env.competitionsCache comp_to_use
      match fetch_and_parse_task_results comp_to_use task_to_use env.fetchOutcome with
      | .err msg =>
        { status := rank_error_status msg
          body := generate_html_page none (some (pyReplace msg "ERROR: " ""))
            (some competition_display_name) (some task_to_use)
          cookieSet := false, cookieValue := none }
      | .ok rows =>
        match findRank rows search_mode search_value with
        | some p =>
          { status := 200
            body := generate_html_page (some p.rank) none
              (some competition_display_name) (some task_to_use)
            cookieSet := true, cookieValue := some p.id }
        | none =>
          let error_msg :=
            match search_mode with
            | .byId =>
              "Pilot with ID " ++ squote ++ htmlEscape (pyStrip req.pilot_id) ++ squote ++ " not found."
            | .byName =>
              "Pilot named " ++ squote ++ htmlEscape (pyStrip req.pilot_name) ++ squote ++ " not found."
          { status := 404
            body := generate_html_page none (some error_msg)
              (some competition_display_name) (some task_to_use)
            cookieSet := true, cookieValue := none }

/-! ### Supporting lemmas: substring search and lowering -/

theorem data_mk (l : List Char) : (String.mk l).data = l := rfl

theorem listStartsWith_nil_pat (l : List Char) : listStartsWith l [] = true := by
  cases l <;> rfl

theorem listStartsWith_append_of (pat : List Char) :
    ∀ l more : List Char, listStartsWith l pat = true →
      listStartsWith (l ++ more) pat = true := by
  induction pat with
  | nil => intro l more _; exact listStartsWith_nil_pat _
  | cons p ps ih =>
    intro l more h
    cases l with
    | nil => simp [listStartsWith] at h
    | cons c cs =>
      simp only [List.cons_append, listStartsWith, Bool.and_eq_true] at h ⊢
      exact ⟨h.1, ih cs more h.2⟩

theorem listContainsSub_append_right (pat l₁ l₂ : List Char)
    (h : listContainsSub pat l₂ = true) : listContainsSub pat (l₁ ++ l₂) = true := by
  induction l₁ with
  | nil => simpa using h
  | cons c cs ih =>
    simp only [List.cons_append, listContainsSub, Bool.or_eq_true]
    exact Or.inr ih

theorem listContainsSub_append_left (pat l₁ l₂ : List Char)
    (h : listContainsSub pat l₁ = true) : listContainsSub pat (l₁ ++ l₂) = true := by
  induction l₁ with
  | nil =>
    have hp : pat = [] := by
      cases pat with
      | nil => rfl
      | cons a as => simp [listContainsSub, List.isEmpty] at h
    subst hp
    cases l₂ with
    | nil => simp [listContainsSub, List.isEmpty]
    | cons c cs => simp [listContainsSub, listStartsWith_nil_pat]
  | cons c cs ih =>
    simp only [listContainsSub, Bool.or_eq_true] at h
    simp only [List.cons_append, listContainsSub, Bool.or_eq_true]
    rcases h with h | h
    · exact Or.inl (listStartsWith_append_of pat (c :: cs) l₂ h)
    · exact Or.inr (ih h)

theorem digitChar_isDigit (d : Nat) : isAsciiDigit (digitChar d) = true := by
  unfold digitChar
  split <;> decide

theorem natDigitsAux_ne_nil :
    ∀ (fuel n : Nat) (acc : List Char), (fuel ≠ 0 ∨ acc ≠ []) →
      natDigitsAux fuel n acc ≠ [] := by
  intro fuel
  induction fuel with
  | zero =>
    intro n acc h
    rcases h with h | h
    · exact absurd rfl h
    · simpa [natDigitsAux] using h
  | succ f ih =>
    intro n acc _
    simp only [natDigitsAux]
    split
    · simp
    · exact ih (n / 10) (digitChar (n % 10) :: acc) (Or.inr (by simp))

theorem natDigitsAux_digits :
    ∀ (fuel n : Nat) (acc : List Char), (∀ c ∈ acc, isAsciiDigit c = true) →
      ∀ c ∈ natDigitsAux fuel n acc, isAsciiDigit c = true := by
  intro fuel
  induction fuel with
  | zero => intro n acc hacc; simpa [natDigitsAux] using hacc
  | succ f ih =>
    intro n acc hacc c hc
    simp only [natDigitsAux] at hc
    split at hc
    · rcases List.mem_cons.mp hc with h | h
      · subst h; exact digitChar_isDigit n
      · exact hacc c h
    · refine ih (n / 10) _ ?_ c hc
      intro x hx
      rcases List.mem_cons.mp hx with h | h
      · subst h; exact digitChar_isDigit _
      · exact hacc x h

theorem natToString_data_digits (n : Nat) :
    ∀ c ∈ (natToString n).data, isAsciiDigit c = true := fun c hc =>
  natDigitsAux_digits (n + 1) n [] (by simp) c hc

theorem natToString_data_ne_nil (n : Nat) : (natToString n).data ≠ [] :=
  natDigitsAux_ne_nil (n + 1) n [] (Or.inl (by simp))

theorem pyLowerChar_digit {c : Char} (h : isAsciiDigit c = true) : pyLowerChar c = c := by
  simp only [isAsciiDigit, Bool.and_eq_true, decide_eq_true_eq] at h
  unfold pyLowerChar
  split
  · next hcond =>
      exfalso
      simp only [Bool.and_eq_true, decide_eq_true_eq] at hcond
      omega
  · rfl

theorem map_pyLowerChar_digits {l : List Char}
    (h : ∀ c ∈ l, isAsciiDigit c = true) : l.map pyLowerChar = l := by
  induction l with
  | nil => rfl
  | cons c cs ih =>
    simp only [List.map_cons]
    rw [pyLowerChar_digit (h c (by simp)), ih (fun x hx => h x (by simp [hx]))]

theorem listStartsWith_skip_digits (pat : List Char)
    (hpat : ∀ c ∈ pat, isAsciiDigit c = false) :
    ∀ (pre mid suf : List Char), mid ≠ [] → (∀ c ∈ mid, isAsciiDigit c = true) →
      listStartsWith (pre ++ (mid ++ suf)) pat = listStartsWith pre pat := by
  induction pat with
  | nil => intro pre mid suf _ _; rw [listStartsWith_nil_pat, listStartsWith_nil_pat]
  | cons p ps ih =>
    intro pre mid suf hm hdig
    cases pre with
    | nil =>
      cases mid with
      | nil => exact absurd rfl hm
      | cons d ds =>
        have h1 : isAsciiDigit d = true := hdig d (by simp)
        have h2 : isAsciiDigit p = false := hpat p (by simp)
        have hne : d ≠ p := by
          intro he
          rw [he, h2] at h1
          cases h1
        simp [listStartsWith, beq_eq_false_iff_ne.mpr hne]
    | cons c cs =>
      simp only [List.cons_append, listStartsWith, List.append_eq]
      rw [ih (fun x hx => hpat x (by simp [hx])) cs mid suf hm hdig]

theorem listContainsSub_drop_digits (pat : List Char) (hne : pat ≠ [])
    (hpat : ∀ c ∈ pat, isAsciiDigit c = false) :
    ∀ (mid suf : List Char), (∀ c ∈ mid, isAsciiDigit c = true) →
      listContainsSub pat (mid ++ suf) = listContainsSub pat suf := by
  intro mid suf
  induction mid with
  | nil => intro _; rfl
  | cons d ds ih =>
    intro hdig
    have hd : isAsciiDigit d = true := hdig d (by simp)
    have hsw : listStartsWith ((d :: ds) ++ suf) pat = false := by
      cases pat with
      | nil => exact absurd rfl hne
      | cons p ps =>
        have hp : isAsciiDigit p = false := hpat p (by simp)
        have hne2 : d ≠ p := by
          intro he
          rw [he, hp] at hd
          cases hd
        simp [listStartsWith, beq_eq_false_iff_ne.mpr hne2]
    simp only [List.cons_append, listContainsSub, List.append_eq] at hsw ⊢
    rw [hsw, Bool.false_or]
    exact ih (fun x hx => hdig x (by simp [hx]))

theorem listContainsSub_split_digits (pat : List Char) (hne : pat ≠ [])
    (hpat : ∀ c ∈ pat, isAsciiDigit c = false) :
    ∀ (pre mid suf : List Char), mid ≠ [] → (∀ c ∈ mid, isAsciiDigit c = true) →
      listContainsSub pat (pre ++ (mid ++ suf)) =
        (listContainsSub pat pre || listContainsSub pat suf) := by
  intro pre
  induction pre with
  | nil =>
    intro mid suf hm hdig
    rw [List.nil_append, listContainsSub_drop_digits pat hne hpat mid suf hdig]
    have h0 : listContainsSub pat [] = false := by
      cases pat with
      | nil => exact absurd rfl hne
      | cons p ps => rfl
    rw [h0, Bool.false_or]
  | cons c cs ih =>
    intro mid suf hm hdig
    have hsw :
        listStartsWith ((c :: cs) ++ (mid ++ suf)) pat = listStartsWith (c :: cs) pat :=
      listStartsWith_skip_digits pat hpat (c :: cs) mid suf hm hdig
    simp only [List.cons_append, listContainsSub, List.append_eq] at hsw ⊢
    rw [hsw, ih mid suf hm hdig, ← Bool.or_assoc]

theorem rank_error_status_eq_404 {msg : String}
    (h : containsStr (pyLower msg) "not found" = true) : rank_error_status msg = 404 := by
  simp [rank_error_status, h]

theorem rank_error_status_eq_500 {msg : String}
    (h : containsStr (pyLower msg) "not found" = false) : rank_error_status msg = 500 := by
  simp [rank_error_status, h]

/-! ### Supporting lemmas: handler status on parse errors -/

theorem handler_status_err (req : RankRequest) (env : RankEnv) (m : SearchMode)
    (v comp task msg : String)
    (hs : searchSpec req = some (m, v))
    (ht : resolveTarget req env = some (comp, task))
    (hf : fetch_and_parse_task_results comp task env.fetchOutcome = .err msg) :
    (handle_form_submission_rank req env).status = rank_error_status msg := by
  unfold handle_form_submission_rank
  rw [hs]
  dsimp only
  rw [ht]
  dsimp only
  rw [hf]

theorem status_404_of_fetch_404 (slug task : String) :
    rank_error_status ("ERROR: Task " ++ task ++ " page not found for competition " ++
      squote ++ slug ++ squote ++ " (404).") = 404 := by
  apply rank_error_status_eq_404
  unfold containsStr
  simp only [pyLower, data_mk, String.data_append, List.map_append, List.append_assoc]
  apply listContainsSub_append_right
  apply listContainsSub_append_right
  apply listContainsSub_append_left
  decide

theorem status_500_of_fetch_status (s : Nat) :
    rank_error_status ("ERROR: Could not fetch data (Status: " ++ natToString s ++ ").") = 500 := by
  apply rank_error_status_eq_500
  unfold containsStr
  simp only [pyLower, data_mk, String.data_append, List.map_append, List.append_assoc]
  rw [map_pyLowerChar_digits (natToString_data_digits s)]
  rw [listContainsSub_split_digits "not found".data (by decide) (by decide)
    (List.map pyLowerChar "ERROR: Could not fetch data (Status: ".data)
    (natToString s).data (List.map pyLowerChar ").".data)
    (natToString_data_ne_nil s) (natToString_data_digits s)]
  decide

/-! ### Supporting lemmas: `html.escape` -/

theorem escapeHtmlChar_ne_nil (c : Char) : escapeHtmlChar c ≠ [] := by
  unfold escapeHtmlChar
  repeat' split
  all_goals simp

theorem strTruthy_htmlEscape (s : String) : strTruthy (htmlEscape s) = strTruthy s := by
  unfold strTruthy htmlEscape
  simp only [data_mk]
  congr 1
  cases s.data with
  | nil => rfl
  | cons c cs =>
    simp only [escapeChars]
    rcases hE : escapeHtmlChar c with _ | ⟨d, ds⟩
    · exact absurd hE (escapeHtmlChar_ne_nil c)
    · rfl

theorem optTruthy_map_escape (o : Option String) :
    optTruthy (o.map htmlEscape) = optTruthy o := by
  cases o with
  | none => rfl
  | some s => exact strTruthy_htmlEscape s

theorem getD_map_escape (o : Option String) :
    (o.map htmlEscape).getD "" = htmlEscape (o.getD "") := by
  cases o with
  | none => rfl
  | some s => rfl

theorem escapeHtmlChar_safe (c : Char) :
    ∀ ch ∈ escapeHtmlChar c, ch ≠ '<' ∧ ch ≠ '>' ∧ ch ≠ Char.ofNat 34 := by
  intro ch hch
  by_cases h1 : c == '&'
  · simp [escapeHtmlChar, h1] at hch
    rcases hch with rfl | rfl | rfl | rfl | rfl <;> decide
  · by_cases h2 : c == '<'
    · simp [escapeHtmlChar, h1, h2] at hch
      rcases hch with rfl | rfl | rfl | rfl <;> decide
    · by_cases h3 : c == '>'
      · simp [escapeHtmlChar, h1, h2, h3] at hch
        rcases hch with rfl | rfl | rfl | rfl <;> decide
      · by_cases h4 : c == Char.ofNat 34
        · simp [escapeHtmlChar, h1, h2, h3, h4] at hch
          rcases hch with rfl | rfl | rfl | rfl | rfl | rfl <;> decide
        · by_cases h5 : c == squoteChar
          · simp [escapeHtmlChar, h1, h2, h3, h4, h5] at hch
            rcases hch with rfl | rfl | rfl | rfl | rfl | rfl <;> decide
          · simp [escapeHtmlChar, h1, h2, h3, h4, h5] at hch
            subst hch
            refine ⟨?_, ?_, ?_⟩
            · intro he; subst he; exact h2 (by decide)
            · intro he; subst he; exact h3 (by decide)
            · intro he; subst he; exact h4 (by decide)

theorem escapeChars_safe :
    ∀ (l : List Char) (ch : Char), ch ∈ escapeChars l →
      ch ≠ '<' ∧ ch ≠ '>' ∧ ch ≠ Char.ofNat 34 := by
  intro l
  induction l with
  | nil => intro ch hch; simp [escapeChars] at hch
  | cons c cs ih =>
    intro ch hch
    simp only [escapeChars, List.mem_append] at hch
    rcases hch with h | h
    · exact escapeHtmlChar_safe c ch h
    · exact ih ch h

/-! ### Claim C6: user-influenced strings reach the output only escaped -/

/-- Claim C6: the rendered page equals the fixed template applied to the
`html.escape`d inputs (plus a rank colour drawn from a fixed palette), and
an escaped string never contains `<`, `>` or a double quote — so no
unescaped markup from the competition name, rank, task number or error
message is interpolated. -/
theorem c6_escaping (rank error comp task : Option String) :
    (generate_html_page rank error comp task =
      assemble_page (rank_color_of (rank.getD ""))
        (rank.map htmlEscape) (error.map htmlEscape)
        (comp.map htmlEscape) (task.map htmlEscape)) ∧
    (∀ s : String, ∀ ch ∈ (htmlEscape s).data,
      ch ≠ '<' ∧ ch ≠ '>' ∧ ch ≠ Char.ofNat 34) := by
  constructor
  · simp only [generate_html_page, assemble_page, optTruthy_map_escape, getD_map_escape]
  · intro s ch hch
    exact escapeChars_safe s.data ch hch

/-- Witness for C6 at a concrete rank page and a concrete escaped character. -/
theorem c6_escaping_witness :
    (generate_html_page (some "1") none (some "Alpha Comp") (some "2") =
      assemble_page (rank_color_of ((some "1" : Option String).getD ""))
        ((some "1" : Option String).map htmlEscape)
        ((none : Option String).map htmlEscape)
        ((some "Alpha Comp" : Option String).map htmlEscape)
        ((some "2" : Option String).map htmlEscape)) ∧
    ('a' ≠ '<' ∧ 'a' ≠ '>' ∧ 'a' ≠ Char.ofNat 34) :=
  ⟨(c6_escaping (some "1") none (some "Alpha Comp") (some "2")).1,
   (c6_escaping (some "1") none (some "Alpha Comp") (some "2")).2 "ab" 'a' (by decide)⟩

/-! ### Supporting lemmas: row parsing and first-match search -/

theorem parseRow_eq (r : Row) :
    parseRow r = if rowValid r then some (rowData r) else none := by
  rcases r with ⟨hasTh, cells⟩
  cases hasTh
  · rcases cells with _ | ⟨c0, _ | ⟨c1, _ | ⟨c2, rest⟩⟩⟩
    · rfl
    · rfl
    · rfl
    · simp only [parseRow, rowValid, rowData]
      cases h : strTruthy (pyStrip c0) && strTruthy (pyStrip c1) && strTruthy (pyStrip c2) <;>
        simp [h]
  · rfl

theorem filterMap_parseRow_eq (rows : List Row) :
    rows.filterMap parseRow = (rows.filter rowValid).map rowData := by
  induction rows with
  | nil => rfl
  | cons r rs ih =>
    simp only [List.filterMap_cons, List.filter_cons, parseRow_eq]
    cases h : rowValid r
    · simp [ih]
    · simp [ih]

theorem find?_first {α : Type} (f : α → Bool) :
    ∀ (l : List α) (p : α), l.find? f = some p →
      ∃ pre post, l = pre ++ p :: post ∧ f p = true ∧ ∀ q ∈ pre, f q = false := by
  intro l
  induction l with
  | nil => intro p h; simp [List.find?] at h
  | cons a as ih =>
    intro p h
    cases hf : f a
    · rw [List.find?_cons_of_neg _ (by simp [hf])] at h
      rcases ih p h with ⟨pre, post, heq, hfp, hpre⟩
      refine ⟨a :: pre, post, by rw [heq]; rfl, hfp, ?_⟩
      intro q hq
      rcases List.mem_cons.mp hq with h1 | h1
      · subst h1; exact hf
      · exact hpre q h1
    · rw [List.find?_cons_of_pos _ (by simp [hf])] at h
      injection h with h
      subst h
      exact ⟨[], as, rfl, hf, by intro q hq; simp at hq⟩

theorem findRank_byId_mem :
    ∀ (rows : List ResultRow) (p : ResultRow), p ∈ rows →
      (rows.map (·.id)).Nodup → findRank rows .byId p.id = some p := by
  intro rows
  induction rows with
  | nil => intro p h _; simp at h
  | cons a as ih =>
    intro p hmem hnd
    rcases List.mem_cons.mp hmem with h | h
    · subst h
      unfold findRank
      rw [List.find?_cons_of_pos]
      simp [rowMatches]
    · have hnd2 : (as.map (·.id)).Nodup := by
        simpa using (List.nodup_cons.mp (by simpa using hnd)).2
      have hane : a.id ≠ p.id := by
        intro he
        have hin : a.id ∈ as.map (·.id) := by
          rw [he]
          exact List.mem_map_of_mem _ h
        exact (List.nodup_cons.mp (by simpa using hnd)).1 hin
      unfold findRank
      rw [List.find?_cons_of_neg]
      · exact ih p h hnd2
      · simp only [rowMatches, beq_iff_eq]
        exact fun he => hane he

/-! ### Claim C3: result table parsing -/

/-- Claim C3: on a fetched page, fewer than two result-class tables is the
table-structure format error; with a second result-class table, the parser
returns exactly the valid data rows of that table (no header cell, 3+
cells, nonempty stripped cells 0/1/2) in page order, its length is the
count of such rows, and zero valid rows is the "no pilot data" format
error. -/
theorem c3_parse_task_results (slug task : String) (tables : List Table) :
    ((resultTables tables).length < 2 →
      fetch_and_parse_task_results slug task (.page tables) =
        .err "ERROR: Results table structure not found or not as expected on page.") ∧
    (∀ t1 t2 rest, resultTables tables = t1 :: t2 :: rest →
      (t2.rows.filter rowValid ≠ [] →
        fetch_and_parse_task_results slug task (.page tables) =
          .ok ((t2.rows.filter rowValid).map rowData) ∧
        ((t2.rows.filter rowValid).map rowData).length = t2.rows.countP rowValid) ∧
      (t2.rows.filter rowValid = [] →
        fetch_and_parse_task_results slug task (.page tables) =
          .err "ERROR: No pilot data found in the results table.")) := by
  constructor
  · intro hlen
    simp only [fetch_and_parse_task_results]
    rcases hres : resultTables tables with _ | ⟨ta, _ | ⟨tb, tl⟩⟩
    · rfl
    · rfl
    · exfalso
      rw [hres] at hlen
      simp only [List.length_cons] at hlen
      omega
  · intro t1 t2 rest hres
    constructor
    · intro hne
      constructor
      · simp only [fetch_and_parse_task_results]
        rw [hres]
        dsimp only
        rw [filterMap_parseRow_eq]
        rw [if_neg]
        simp only [List.isEmpty_iff, List.map_eq_nil_iff]
        exact hne
      · rw [List.length_map, List.countP_eq_length_filter]
    · intro hnil
      simp only [fetch_and_parse_task_results]
      rw [hres]
      dsimp only
      rw [filterMap_parseRow_eq, hnil]
      rfl

/-- Witness for C3 on a concrete page: two result-class tables, the second
holding one header row, one valid data row and one too-short row. -/
theorem c3_parse_task_results_witness :
    fetch_and_parse_task_results "comp-x" "1"
        (.page [⟨true, []⟩, ⟨true, [⟨true, ["Rank", "Id", "Name"]⟩,
          ⟨false, ["1", "80227", "John Doe"]⟩, ⟨false, ["2"]⟩]⟩]) =
      .ok ((([⟨true, ["Rank", "Id", "Name"]⟩, ⟨false, ["1", "80227", "John Doe"]⟩,
          ⟨false, ["2"]⟩] : List Row).filter rowValid).map rowData) ∧
    ((([⟨true, ["Rank", "Id", "Name"]⟩, ⟨false, ["1", "80227", "John Doe"]⟩,
          ⟨false, ["2"]⟩] : List Row).filter rowValid).map rowData).length =
      ([⟨true, ["Rank", "Id", "Name"]⟩, ⟨false, ["1", "80227", "John Doe"]⟩,
          ⟨false, ["2"]⟩] : List Row).countP rowValid :=
  ((c3_parse_task_results "comp-x" "1"
      [⟨true, []⟩, ⟨true, [⟨true, ["Rank", "Id", "Name"]⟩,
        ⟨false, ["1", "80227", "John Doe"]⟩, ⟨false, ["2"]⟩]⟩]).2
    ⟨true, []⟩
    ⟨true, [⟨true, ["Rank", "Id", "Name"]⟩, ⟨false, ["1", "80227", "John Doe"]⟩,
      ⟨false, ["2"]⟩]⟩
    [] rfl).1 (by decide)

/-! ### Claim C4: rank lookup -/

/-- Claim C4: the lookup scans rows in order and returns the first match
(byId: exact id equality; byName: case-insensitive trimmed name equality);
for a pilot id present in a duplicate-free sequence it returns that row
(hence its rank), and for an absent id it returns none. -/
theorem c4_find_rank (rows : List ResultRow) (value : String) :
    (∀ (mode : SearchMode) (p : ResultRow), findRank rows mode value = some p →
      p ∈ rows ∧ rowMatches mode value p = true ∧
      ∃ pre post, rows = pre ++ p :: post ∧ ∀ q ∈ pre, rowMatches mode value q = false) ∧
    (∀ p ∈ rows, (rows.map (·.id)).Nodup →
      findRank rows .byId p.id = some p ∧
      (findRank rows .byId p.id).map (·.rank) = some p.rank) ∧
    ((∀ p ∈ rows, p.id ≠ value) → findRank rows .byId value = none) ∧
    (∀ p : ResultRow, findRank rows .byName value = some p →
      pyLower (pyStrip p.name) = pyLower (pyStrip value)) := by
  refine ⟨?_, ?_, ?_, ?_⟩
  · intro mode p h
    rcases find?_first (rowMatches mode value) rows p h with ⟨pre, post, heq, hfp, hpre⟩
    refine ⟨by rw [heq]; simp, hfp, pre, post, heq, hpre⟩
  · intro p hmem hnd
    have h := findRank_byId_mem rows p hmem hnd
    exact ⟨h, by rw [h]; rfl⟩
  · intro h
    unfold findRank
    rw [List.find?_eq_none]
    intro x hx
    simp only [rowMatches, beq_iff_eq]
    exact h x hx
  · intro p h
    have := List.find?_some h
    simpa only [rowMatches, beq_iff_eq] using this

/-- Witness for C4: lookup by present id, by absent id, and by
differently-cased name. -/
theorem c4_find_rank_witness :
    findRank [⟨"1", "80227", "John Doe"⟩, ⟨"2", "90001", "Jane Roe"⟩] .byId "90001" =
        some ⟨"2", "90001", "Jane Roe"⟩ ∧
    findRank [⟨"1", "80227", "John Doe"⟩] .byId "99999" = none ∧
    pyLower (pyStrip "John Doe") = pyLower (pyStrip "john doe") :=
  ⟨((c4_find_rank [⟨"1", "80227", "John Doe"⟩, ⟨"2", "90001", "Jane Roe"⟩] "90001").2.1
      ⟨"2", "90001", "Jane Roe"⟩ (by decide) (by decide)).1,
   (c4_find_rank [⟨"1", "80227", "John Doe"⟩] "99999").2.2.1 (by decide),
   (c4_find_rank [⟨"1", "80227", "John Doe"⟩] "john doe").2.2.2
     ⟨"1", "80227", "John Doe"⟩ (by decide)⟩

/-! ### Claim C10: the not-found response still sets the cookie -/

/-- Claim C10: when validation and target resolution succeed and the fetch
parses, the handler sets the saved-pilot-id cookie even on the 404
pilot-not-found response, and there with the null value rather than the
submitted one; on success it sets it to the found pilot id. -/
theorem c10_cookie_on_not_found (req : RankRequest) (env : RankEnv)
    (m : SearchMode) (v comp task : String) (rows : List ResultRow)
    (hs : searchSpec req = some (m, v))
    (ht : resolveTarget req env = some (comp, task))
    (hf : fetch_and_parse_task_results comp task env.fetchOutcome = .ok rows) :
    (findRank rows m v = none →
      (handle_form_submission_rank req env).status = 404 ∧
      (handle_form_submission_rank req env).cookieSet = true ∧
      (handle_form_submission_rank req env).cookieValue = none) ∧
    (∀ p, findRank rows m v = some p →
      (handle_form_submission_rank req env).cookieSet = true ∧
      (handle_form_submission_rank req env).cookieValue = some p.id) := by
  constructor
  · intro hmiss
    unfold handle_form_submission_rank
    rw [hs]
    dsimp only
    rw [ht]
    dsimp only
    rw [hf]
    dsimp only
    rw [hmiss]
    exact ⟨rfl, rfl, rfl⟩
  · intro p hp
    unfold handle_form_submission_rank
    rw [hs]
    dsimp only
    rw [ht]
    dsimp only
    rw [hf]
    dsimp only
    rw [hp]
    exact ⟨rfl, rfl⟩

/-- Witness for C10: a parsed page holding only a different pilot. -/
theorem c10_cookie_on_not_found_witness :
    (handle_form_submission_rank ⟨"comp-x", "1", "80227", ""⟩
      ⟨none, .page [⟨true, []⟩, ⟨true, [⟨false, ["1", "11111", "Ann Bee"]⟩]⟩], none⟩).status = 404 ∧
    (handle_form_submission_rank ⟨"comp-x", "1", "80227", ""⟩
      ⟨none, .page [⟨true, []⟩, ⟨true, [⟨false, ["1", "11111", "Ann Bee"]⟩]⟩], none⟩).cookieSet = true ∧
    (handle_form_submission_rank ⟨"comp-x", "1", "80227", ""⟩
      ⟨none, .page [⟨true, []⟩, ⟨true, [⟨false, ["1", "11111", "Ann Bee"]⟩]⟩], none⟩).cookieValue = none :=
  (c10_cookie_on_not_found ⟨"comp-x", "1", "80227", ""⟩
    ⟨none, .page [⟨true, []⟩, ⟨true, [⟨false, ["1", "11111", "Ann Bee"]⟩]⟩], none⟩
    .byId "80227" "comp-x" "1" [⟨"1", "11111", "Ann Bee"⟩]
    (by decide) (by decide) (by decide)).1 (by decide)

/-! ### Claim C1: error-to-HTTP-status mapping of `/get_rank` -/

/-- Claim C1 counterexample: on a page with zero result-class tables the
parser returns the table-structure format error, and the endpoint maps it
to HTTP 404 — not the 500 the claim requires for a format error — because
the message contains "not found". -/
theorem c1_counterexample :
    fetch_and_parse_task_results "comp-x" "1" (.page []) =
      .err "ERROR: Results table structure not found or not as expected on page." ∧
    (handle_form_submission_rank ⟨"comp-x", "1", "80227", ""⟩
      ⟨none, .page [], none⟩).status = 404 := by
  exact ⟨rfl, by decide⟩

/-- Claim C1 (amended): for a `/get_rank` request that passes validation
and competition/task resolution, a fetch failure with HTTP status 404
yields response status 404; the format error for fewer than two
result-class tables also yields 404 (its message contains "not found");
the format error for zero valid pilot rows, a fetch failure with any other
status, and a fetch failure without a response all yield 500. -/
theorem c1_amended_error_status (req : RankRequest) (env : RankEnv)
    (m : SearchMode) (v comp task : String)
    (hs : searchSpec req = some (m, v))
    (ht : resolveTarget req env = some (comp, task)) :
    (env.fetchOutcome = .failure (some 404) →
      (handle_form_submission_rank req env).status = 404) ∧
    (∀ s : Nat, s ≠ 404 → env.fetchOutcome = .failure (some s) →
      (handle_form_submission_rank req env).status = 500) ∧
    (env.fetchOutcome = .failure none →
      (handle_form_submission_rank req env).status = 500) ∧
    (∀ tables, env.fetchOutcome = .page tables → (resultTables tables).length < 2 →
      (handle_form_submission_rank req env).status = 404) ∧
    (∀ tables t1 t2 rest, env.fetchOutcome = .page tables →
      resultTables tables = t1 :: t2 :: rest → t2.rows.filterMap parseRow = [] →
      (handle_form_submission_rank req env).status = 500) := by
  refine ⟨?_, ?_, ?_, ?_, ?_⟩
  · intro h
    have hf : fetch_and_parse_task_results comp task env.fetchOutcome =
        .err ("ERROR: Task " ++ task ++ " page not found for competition " ++
          squote ++ comp ++ squote ++ " (404).") := by
      rw [h]
      simp only [fetch_and_parse_task_results]
      rfl
    rw [handler_status_err req env m v comp task _ hs ht hf]
    exact status_404_of_fetch_404 comp task
  · intro s hs404 h
    have hf : fetch_and_parse_task_results comp task env.fetchOutcome =
        .err ("ERROR: Could not fetch data (Status: " ++ natToString s ++ ").") := by
      rw [h]
      simp only [fetch_and_parse_task_results]
      rw [if_neg]
      simp only [beq_iff_eq]
      exact hs404
    rw [handler_status_err req env m v comp task _ hs ht hf]
    exact status_500_of_fetch_status s
  · intro h
    have hf : fetch_and_parse_task_results comp task env.fetchOutcome =
        .err "ERROR: Could not fetch data." := by
      rw [h]
      rfl
    rw [handler_status_err req env m v comp task _ hs ht hf]
    decide
  · intro tables h hlen
    have hf : fetch_and_parse_task_results comp task env.fetchOutcome =
        .err "ERROR: Results table structure not found or not as expected on page." := by
      rw [h]
      simp only [fetch_and_parse_task_results]
      rcases hres : resultTables tables with _ | ⟨ta, _ | ⟨tb, tl2⟩⟩
      · rfl
      · rfl
      · exfalso
        rw [hres] at hlen
        simp only [List.length_cons] at hlen
        omega
    rw [handler_status_err req env m v comp task _ hs ht hf]
    decide
  · intro tables t1 t2 rest h hres hparsed
    have hf : fetch_and_parse_task_results comp task env.fetchOutcome =
        .err "ERROR: No pilot data found in the results table." := by
      rw [h]
      simp only [fetch_and_parse_task_results]
      rw [hres]
      dsimp only
      rw [hparsed]
      rfl
    rw [handler_status_err req env m v comp task _ hs ht hf]
    decide

/-- Witness for C1 at a concrete 404 fetch failure. -/
theorem c1_amended_error_status_witness :
    (handle_form_submission_rank ⟨"comp-x", "1", "80227", ""⟩
      ⟨none, .failure (some 404), none⟩).status = 404 :=
  (c1_amended_error_status ⟨"comp-x", "1", "80227", ""⟩
    ⟨none, .failure (some 404), none⟩ .byId "80227" "comp-x" "1"
    (by decide) (by decide)).1 rfl

/-! ### Supporting lemmas: the anchor-collection loop -/

theorem collect_mem :
    ∀ (anchors : List Anchor) (found : List String) (c : Competition),
      c ∈ collect anchors found →
      found.contains c.slug = false ∧
      ∃ pre a post, anchors = pre ++ a :: post ∧ anchorValid a = true ∧
        stripSlashes a.href = c.slug ∧
        c.name = formatDisplayName (pyStrip a.text) c.slug ∧
        ∀ b ∈ pre, anchorValid b = true → stripSlashes b.href ≠ c.slug := by
  intro anchors
  induction anchors with
  | nil => intro found c hc; simp [collect] at hc
  | cons a rest ih =>
    intro found c hc
    by_cases h1 : matchesSlugPattern a.href
    · simp only [collect] at hc
      rw [if_pos h1] at hc
      by_cases h2 : strTruthy (stripSlashes a.href) && strTruthy (pyStrip a.text) &&
          !found.contains (stripSlashes a.href) &&
          !pyStartsWith (stripSlashes a.href) "http" &&
          decide ((stripSlashes a.href).length > 3)
      · rw [if_pos h2] at hc
        simp only [Bool.and_eq_true] at h2
        obtain ⟨⟨⟨⟨ht1, ht2⟩, hcon⟩, hhttp⟩, hlen⟩ := h2
        rcases List.mem_cons.mp hc with h | h
        · subst h
          refine ⟨by simpa using hcon, [], a, rest, rfl, ?_, rfl, rfl,
            by intro b hb; simp at hb⟩
          unfold anchorValid
          simp only [Bool.and_eq_true]
          exact ⟨h1, ⟨⟨⟨ht1, ht2⟩, hhttp⟩, hlen⟩⟩
        · rcases ih (stripSlashes a.href :: found) c h with
            ⟨hcon2, pre, b, post, heq, hval, hslug, hname, hpre⟩
          have hsplit : (c.slug == stripSlashes a.href) = false ∧
              found.contains c.slug = false := by
            rw [List.contains_cons] at hcon2
            exact ⟨(Bool.or_eq_false_iff.mp hcon2).1, (Bool.or_eq_false_iff.mp hcon2).2⟩
          refine ⟨hsplit.2, a :: pre, b, post, by rw [heq]; rfl, hval, hslug, hname, ?_⟩
          intro b2 hb2 hbval
          rcases List.mem_cons.mp hb2 with hb | hb
          · subst hb
            intro he
            have : (c.slug == stripSlashes b2.href) = true := by
              rw [he]
              exact beq_self_eq_true _
            rw [hsplit.1] at this
            cases this
          · exact hpre b2 hb hbval
      · rw [if_neg h2] at hc
        rcases ih found c hc with ⟨hcon, pre, b, post, heq, hval, hslug, hname, hpre⟩
        refine ⟨hcon, a :: pre, b, post, by rw [heq]; rfl, hval, hslug, hname, ?_⟩
        intro b2 hb2 hbval
        rcases List.mem_cons.mp hb2 with hb | hb
        · subst hb
          intro he
          unfold anchorValid at hbval
          simp only [Bool.and_eq_true] at hbval
          obtain ⟨_, ⟨⟨⟨ht1, ht2⟩, hhttp⟩, hlen⟩⟩ := hbval
          by_cases hcf : found.contains (stripSlashes b2.href)
          · rw [he] at hcf
            rw [hcf] at hcon
            cases hcon
          · apply h2
            simp only [Bool.and_eq_true]
            refine ⟨⟨⟨⟨ht1, ht2⟩, ?_⟩, hhttp⟩, hlen⟩
            simp only [Bool.not_eq_true']
            exact Bool.eq_false_iff.mpr hcf
        · exact hpre b2 hb hbval
    · simp only [collect] at hc
      rw [if_neg h1] at hc
      rcases ih found c hc with ⟨hcon, pre, b, post, heq, hval, hslug, hname, hpre⟩
      refine ⟨hcon, a :: pre, b, post, by rw [heq]; rfl, hval, hslug, hname, ?_⟩
      intro b2 hb2 hbval
      rcases List.mem_cons.mp hb2 with hb | hb
      · subst hb
        exfalso
        apply h1
        unfold anchorValid at hbval
        simp only [Bool.and_eq_true] at hbval
        exact hbval.1
      · exact hpre b2 hb hbval

theorem collect_slug_nodup :
    ∀ (anchors : List Anchor) (found : List String),
      ((collect anchors found).map (·.slug)).Nodup := by
  intro anchors
  induction anchors with
  | nil => intro found; simp [collect]
  | cons a rest ih =>
    intro found
    by_cases h1 : matchesSlugPattern a.href
    · simp only [collect]
      rw [if_pos h1]
      by_cases h2 : strTruthy (stripSlashes a.href) && strTruthy (pyStrip a.text) &&
          !found.contains (stripSlashes a.href) &&
          !pyStartsWith (stripSlashes a.href) "http" &&
          decide ((stripSlashes a.href).length > 3)
      · rw [if_pos h2]
        simp only [List.map_cons, List.nodup_cons]
        constructor
        · intro hmem
          rcases List.mem_map.mp hmem with ⟨c, hc, hcslug⟩
          rcases collect_mem rest (stripSlashes a.href :: found) c hc with ⟨hcon, _⟩
          rw [hcslug, List.contains_cons] at hcon
          rw [beq_self_eq_true] at hcon
          cases (Bool.or_eq_false_iff.mp hcon).1
        · exact ih (stripSlashes a.href :: found)
      · rw [if_neg h2]
        exact ih found
    · simp only [collect]
      rw [if_neg h1]
      exact ih found

/-! ### Claim C7: the competition lister -/

/-- Claim C7: the lister returns `[]` on a failed fetch; on success every
entry comes from a slug-pattern anchor that is not an absolute URL and is
longer than 3 characters, the first anchor with that slug wins, slugs are
unique, each display name follows the capitalize-words-with-fallback rule,
and the result is sorted by display name. -/
theorem c7_list_competitions (o : RootOutcome) :
    (o = .failure → listCompetitions o = []) ∧
    (∀ anchors, o = .success anchors →
      ((listCompetitions o).map (·.slug)).Nodup ∧
      List.Sorted nameLe (listCompetitions o) ∧
      (∀ c ∈ listCompetitions o, ∃ pre a post,
        anchors = pre ++ a :: post ∧ anchorValid a = true ∧
        c.slug = stripSlashes a.href ∧
        c.name = formatDisplayName (pyStrip a.text) c.slug ∧
        ∀ b ∈ pre, anchorValid b = true → stripSlashes b.href ≠ c.slug)) := by
  constructor
  · intro h; subst h; rfl
  · intro anchors h
    subst h
    refine ⟨?_, ?_, ?_⟩
    · have hperm :
          List.Perm (List.insertionSort nameLe (collect anchors [])) (collect anchors []) :=
        List.perm_insertionSort nameLe (collect anchors [])
      exact ((hperm.map (·.slug)).nodup_iff).mpr (collect_slug_nodup anchors [])
    · exact List.sorted_insertionSort nameLe (collect anchors [])
    · intro c hc
      have hc2 : c ∈ collect anchors [] :=
        (List.perm_insertionSort nameLe (collect anchors [])).mem_iff.mp hc
      rcases collect_mem anchors [] c hc2 with ⟨_, pre, a, post, heq, hval, hslug, hname, hpre⟩
      exact ⟨pre, a, post, heq, hval, hslug.symm, hname, hpre⟩

/-- Witness for C7 on a one-anchor root page. -/
theorem c7_list_competitions_witness :
    ((listCompetitions (RootOutcome.success [⟨"alpha-cup", "alpha cup"⟩])).map (·.slug)).Nodup ∧
    List.Sorted nameLe (listCompetitions (RootOutcome.success [⟨"alpha-cup", "alpha cup"⟩])) ∧
    (∀ c ∈ listCompetitions (RootOutcome.success [⟨"alpha-cup", "alpha cup"⟩]), ∃ pre a post,
      [(⟨"alpha-cup", "alpha cup"⟩ : Anchor)] = pre ++ a :: post ∧ anchorValid a = true ∧
      c.slug = stripSlashes a.href ∧
      c.name = formatDisplayName (pyStrip a.text) c.slug ∧
      ∀ b ∈ pre, anchorValid b = true → stripSlashes b.href ≠ c.slug) :=
  (c7_list_competitions (RootOutcome.success [⟨"alpha-cup", "alpha cup"⟩])).2
    [⟨"alpha-cup", "alpha cup"⟩] rfl

/-! ### Claim C5: rank colour mapping -/

/-- Claim C5: for every rank string, the rendered rank colour is gold when
it parses to 1, limegreen when it parses to an integer in 2..49, red when
it parses to an integer of at least 50, and the neutral default black when
it is non-numeric. -/
theorem c5_rank_color (r : String) :
    (pyInt r = some 1 → rank_color_of r = "gold") ∧
    (∀ n : Int, pyInt r = some n → 2 ≤ n → n ≤ 49 → rank_color_of r = "limegreen") ∧
    (∀ n : Int, pyInt r = some n → 50 ≤ n → rank_color_of r = "red") ∧
    (pyInt r = none → rank_color_of r = "black") := by
  refine ⟨?_, ?_, ?_, ?_⟩
  · intro h
    simp [rank_color_of, h]
  · intro n h h2 h49
    unfold rank_color_of
    rw [h]
    dsimp only
    have h1 : ¬((n == 1) = true) := by
      simp only [beq_iff_eq]
      omega
    rw [if_neg h1, if_pos ⟨h2, h49⟩]
  · intro n h h50
    unfold rank_color_of
    rw [h]
    dsimp only
    have h1 : ¬((n == 1) = true) := by
      simp only [beq_iff_eq]
      omega
    have h2 : ¬(2 ≤ n ∧ n ≤ 49) := by omega
    rw [if_neg h1, if_neg h2, if_pos h50]
  · intro h
    simp [rank_color_of, h]

/-- Witness for C5 at the spec's four sample ranks. -/
theorem c5_rank_color_witness :
    rank_color_of "1" = "gold" ∧ rank_color_of "25" = "limegreen" ∧
    rank_color_of "75" = "red" ∧ rank_color_of "DNF" = "black" :=
  ⟨(c5_rank_color "1").1 (by decide),
   (c5_rank_color "25").2.1 25 (by decide) (by decide) (by decide),
   (c5_rank_color "75").2.2.1 75 (by decide) (by decide),
   (c5_rank_color "DNF").2.2.2 (by decide)⟩

/-! ### Supporting lemmas: the probing loops of `find_active_task` -/

theorem scanTasks_head_mem (probe : Nat → ProbeResult) (slug : String)
    (n : Nat) (rest : List Nat) :
    n ∈ (scanTasksFrom probe slug (n :: rest)).2 := by
  cases hp : probe n with
  | notFound => simp [scanTasksFrom, hp]
  | fetchFail => simp [scanTasksFrom, hp]
  | page h2s =>
    by_cases ht : taskActive n h2s = true
    · simp [scanTasksFrom, hp, ht]
    · simp [scanTasksFrom, hp, Bool.eq_false_iff.mpr ht]

theorem scanTasks_trace_prefix (probe : Nat → ProbeResult) (slug : String) :
    ∀ tasks : List Nat, ∃ suf, (scanTasksFrom probe slug tasks).2 ++ suf = tasks := by
  intro tasks
  induction tasks with
  | nil => exact ⟨[], rfl⟩
  | cons n rest ih =>
    cases hp : probe n with
    | notFound => exact ⟨rest, by simp [scanTasksFrom, hp]⟩
    | fetchFail =>
      rcases ih with ⟨suf, hsuf⟩
      exact ⟨suf, by simp [scanTasksFrom, hp, hsuf]⟩
    | page h2s =>
      by_cases ht : taskActive n h2s = true
      · exact ⟨rest, by simp [scanTasksFrom, hp, ht]⟩
      · rcases ih with ⟨suf, hsuf⟩
        exact ⟨suf, by simp [scanTasksFrom, hp, Bool.eq_false_iff.mpr ht, hsuf]⟩

theorem scanTasks_notFound_end (probe : Nat → ProbeResult) (slug : String) :
    ∀ (tasks : List Nat) (k : Nat), probe k = .notFound →
      k ∈ (scanTasksFrom probe slug tasks).2 →
      ∃ pre, (scanTasksFrom probe slug tasks).2 = pre ++ [k] := by
  intro tasks
  induction tasks with
  | nil => intro k hk hmem; simp [scanTasksFrom] at hmem
  | cons n rest ih =>
    intro k hk hmem
    cases hp : probe n with
    | notFound =>
      simp [scanTasksFrom, hp] at hmem
      subst hmem
      exact ⟨[], by simp [scanTasksFrom, hp]⟩
    | fetchFail =>
      simp [scanTasksFrom, hp] at hmem
      rcases hmem with h | h
      · subst h; rw [hp] at hk; cases hk
      · rcases ih k hk h with ⟨pre, hpre⟩
        exact ⟨n :: pre, by simp [scanTasksFrom, hp, hpre]⟩
    | page h2s =>
      by_cases ht : taskActive n h2s = true
      · simp [scanTasksFrom, hp, ht] at hmem
        subst hmem
        rw [hp] at hk
        cases hk
      · have ht' := Bool.eq_false_iff.mpr ht
        simp [scanTasksFrom, hp, ht'] at hmem
        rcases hmem with h | h
        · subst h; rw [hp] at hk; cases hk
        · rcases ih k hk h with ⟨pre, hpre⟩
          exact ⟨n :: pre, by simp [scanTasksFrom, hp, ht', hpre]⟩

theorem scanTasks_notFound_le (probe : Nat → ProbeResult) (slug : String)
    (tasks : List Nat) (hpw : tasks.Pairwise (· < ·)) (k j : Nat)
    (hk : probe k = .notFound)
    (hkt : k ∈ (scanTasksFrom probe slug tasks).2)
    (hjt : j ∈ (scanTasksFrom probe slug tasks).2) : j ≤ k := by
  rcases scanTasks_notFound_end probe slug tasks k hk hkt with ⟨pre, htr⟩
  rcases scanTasks_trace_prefix probe slug tasks with ⟨suf, hsuf⟩
  have hsub : ((scanTasksFrom probe slug tasks).2).Sublist tasks := by
    have hsub0 : ((scanTasksFrom probe slug tasks).2).Sublist
        ((scanTasksFrom probe slug tasks).2 ++ suf) :=
      List.sublist_append_left _ _
    rw [hsuf] at hsub0
    exact hsub0
  have hpw2 : ((scanTasksFrom probe slug tasks).2).Pairwise (· < ·) :=
    List.Pairwise.sublist hsub hpw
  rw [htr] at hjt hpw2
  rcases List.mem_append.mp hjt with h | h
  · exact le_of_lt ((List.pairwise_append.mp hpw2).2.2 j h k (by simp))
  · exact le_of_eq (by simpa using h)

theorem scanTasks_none_no_hit (probe : Nat → ProbeResult) (slug : String) :
    ∀ tasks : List Nat, (scanTasksFrom probe slug tasks).1 = none →
      ∀ j ∈ (scanTasksFrom probe slug tasks).2, probeHitAt probe j = false := by
  intro tasks
  induction tasks with
  | nil => intro _ j hj; simp [scanTasksFrom] at hj
  | cons n rest ih =>
    intro hres j hj
    cases hp : probe n with
    | notFound =>
      simp [scanTasksFrom, hp] at hj
      subst hj
      simp [probeHitAt, hp]
    | fetchFail =>
      simp [scanTasksFrom, hp] at hres hj
      rcases hj with h | h
      · subst h; simp [probeHitAt, hp]
      · exact ih hres j h
    | page h2s =>
      by_cases ht : taskActive n h2s = true
      · simp [scanTasksFrom, hp, ht] at hres
      · have ht' := Bool.eq_false_iff.mpr ht
        simp [scanTasksFrom, hp, ht'] at hres hj
        rcases hj with h | h
        · subst h; simp [probeHitAt, hp, ht']
        · exact ih hres j h

theorem scanTasks_some (probe : Nat → ProbeResult) (slug : String) :
    ∀ (tasks : List Nat) (a : ActiveTask),
      (scanTasksFrom probe slug tasks).1 = some a →
      ∃ k pre, a = ⟨slug, natToString k⟩ ∧
        (scanTasksFrom probe slug tasks).2 = pre ++ [k] ∧
        probeHitAt probe k = true ∧ ∀ j ∈ pre, probeHitAt probe j = false := by
  intro tasks
  induction tasks with
  | nil => intro a h; simp [scanTasksFrom] at h
  | cons n rest ih =>
    intro a h
    cases hp : probe n with
    | notFound => simp [scanTasksFrom, hp] at h
    | fetchFail =>
      simp [scanTasksFrom, hp] at h
      rcases ih a h with ⟨k, pre, ha, htr, hhit, hpre⟩
      refine ⟨k, n :: pre, ha, by simp [scanTasksFrom, hp, htr], hhit, ?_⟩
      intro j hj
      rcases List.mem_cons.mp hj with h1 | h1
      · subst h1; simp [probeHitAt, hp]
      · exact hpre j h1
    | page h2s =>
      by_cases ht : taskActive n h2s = true
      · simp [scanTasksFrom, hp, ht] at h
        refine ⟨n, [], h.symm, by simp [scanTasksFrom, hp, ht], ?_, by simp⟩
        simp [probeHitAt, hp, ht]
      · have ht' := Bool.eq_false_iff.mpr ht
        simp [scanTasksFrom, hp, ht'] at h
        rcases ih a h with ⟨k, pre, ha, htr, hhit, hpre⟩
        refine ⟨k, n :: pre, ha, by simp [scanTasksFrom, hp, ht', htr], hhit, ?_⟩
        intro j hj
        rcases List.mem_cons.mp hj with h1 | h1
        · subst h1; simp [probeHitAt, hp, ht']
        · exact hpre j h1

theorem scanTasks_fetchFail_next (probe : Nat → ProbeResult) (slug : String) :
    ∀ (m s k : Nat),
      k ∈ (scanTasksFrom probe slug (List.range' s m)).2 →
      probe k = .fetchFail → k + 1 < s + m →
      k + 1 ∈ (scanTasksFrom probe slug (List.range' s m)).2 := by
  intro m
  induction m with
  | zero => intro s k hmem _ _; simp [List.range', scanTasksFrom] at hmem
  | succ m2 ih =>
    intro s k hmem hpf hlt
    rw [List.range'_succ] at hmem ⊢
    cases hp : probe s with
    | notFound =>
      simp [scanTasksFrom, hp] at hmem
      subst hmem
      rw [hpf] at hp
      cases hp
    | fetchFail =>
      simp [scanTasksFrom, hp] at hmem ⊢
      rcases hmem with h | h
      · subst h
        rcases m2 with _ | m3
        · exact absurd hlt (by omega)
        · refine Or.inr ?_
          rw [List.range'_succ]
          exact scanTasks_head_mem probe slug (k + 1) _
      · exact Or.inr (ih (s + 1) k h hpf (by omega))
    | page h2s =>
      by_cases ht : taskActive s h2s = true
      · simp [scanTasksFrom, hp, ht] at hmem
        subst hmem
        rw [hpf] at hp
        cases hp
      · have ht' := Bool.eq_false_iff.mpr ht
        simp [scanTasksFrom, hp, ht'] at hmem ⊢
        rcases hmem with h | h
        · subst h; rw [hpf] at hp; cases hp
        · exact Or.inr (ih (s + 1) k h hpf (by omega))

theorem scanAll_trace_mem (probe : String → Nat → ProbeResult) :
    ∀ (comps : List Competition) (c : String) (k : Nat),
      (c, k) ∈ (scanAll probe comps).2 →
      k ∈ (scanComp probe c).2 ∧
      ∀ j ∈ (scanComp probe c).2, (c, j) ∈ (scanAll probe comps).2 := by
  intro comps
  induction comps with
  | nil => intro c k h; simp [scanAll] at h
  | cons c0 cs ih =>
    intro c k h
    cases hr : (scanComp probe c0.slug).1 with
    | some a =>
      simp only [scanAll, hr] at h ⊢
      rcases List.mem_map.mp h with ⟨n, hn, heq⟩
      have h1 : c0.slug = c := congrArg Prod.fst heq
      have h2 : n = k := congrArg Prod.snd heq
      subst h1
      subst h2
      exact ⟨hn, fun j hj => List.mem_map_of_mem _ hj⟩
    | none =>
      simp only [scanAll, hr] at h ⊢
      rcases List.mem_append.mp h with h | h
      · rcases List.mem_map.mp h with ⟨n, hn, heq⟩
        have h1 : c0.slug = c := congrArg Prod.fst heq
        have h2 : n = k := congrArg Prod.snd heq
        subst h1
        subst h2
        exact ⟨hn, fun j hj => List.mem_append_left _ (List.mem_map_of_mem _ hj)⟩
      · rcases ih c k h with ⟨h1, h2⟩
        exact ⟨h1, fun j hj => List.mem_append_right _ (h2 j hj)⟩

theorem scanAll_some (probe : String → Nat → ProbeResult) :
    ∀ (comps : List Competition) (a : ActiveTask),
      (scanAll probe comps).1 = some a →
      ∃ c k pre, a = ⟨c, natToString k⟩ ∧
        (scanAll probe comps).2 = pre ++ [(c, k)] ∧
        probeHit probe c k = true ∧ ∀ p ∈ pre, probeHit probe p.1 p.2 = false := by
  intro comps
  induction comps with
  | nil => intro a h; simp [scanAll] at h
  | cons c0 cs ih =>
    intro a h
    cases hr : (scanComp probe c0.slug).1 with
    | some a0 =>
      simp only [scanAll, hr] at h ⊢
      injection h with h
      subst h
      rcases scanTasks_some (probe c0.slug) c0.slug (List.range' 1 MAX_TASKS_TO_CHECK)
        a0 hr with ⟨k, pre, ha, htr, hhit, hpre⟩
      have htr2 : (scanComp probe c0.slug).2 = pre ++ [k] := htr
      refine ⟨c0.slug, k, pre.map (fun n => (c0.slug, n)), ha, ?_, hhit, ?_⟩
      · rw [htr2, List.map_append]
        rfl
      · intro p hp
        rcases List.mem_map.mp hp with ⟨n, hn, heq⟩
        subst heq
        exact hpre n hn
    | none =>
      simp only [scanAll, hr] at h ⊢
      rcases ih a h with ⟨c, k, pre, ha, htr, hhit, hpre⟩
      refine ⟨c, k, (scanComp probe c0.slug).2.map (fun n => (c0.slug, n)) ++ pre,
        ha, ?_, hhit, ?_⟩
      · rw [htr, List.append_assoc]
      · intro p hp
        rcases List.mem_append.mp hp with h1 | h1
        · rcases List.mem_map.mp h1 with ⟨n, hn, heq⟩
          subst heq
          exact scanTasks_none_no_hit (probe c0.slug) c0.slug _ hr n hn
        · exact hpre p h1

/-! ### Claim C8: probing control flow -/

/-- Claim C8: in the active-task search, a 404 on `(c, k)` means no later
task of competition `c` is probed; a transient failure on `(c, k)` with
`k` below the bound means `(c, k+1)` is still probed; after a competition
scans clean the next competition is probed; and a returned task is the
last probe of the whole search, its page matches, and no earlier probe
matched (first match wins and short-circuits). -/
theorem c8_probe_control_flow (probe : String → Nat → ProbeResult)
    (comps : List Competition) :
    (∀ c k j, (c, k) ∈ (scanAll probe comps).2 → probe c k = .notFound →
      (c, j) ∈ (scanAll probe comps).2 → j ≤ k) ∧
    (∀ c k, (c, k) ∈ (scanAll probe comps).2 → probe c k = .fetchFail →
      k < MAX_TASKS_TO_CHECK → (c, k + 1) ∈ (scanAll probe comps).2) ∧
    (∀ a, (scanAll probe comps).1 = some a → ∃ c k pre,
      a = ⟨c, natToString k⟩ ∧ (scanAll probe comps).2 = pre ++ [(c, k)] ∧
      probeHit probe c k = true ∧ ∀ p ∈ pre, probeHit probe p.1 p.2 = false) ∧
    (∀ c0 c1 rest2, comps = c0 :: c1 :: rest2 → (scanComp probe c0.slug).1 = none →
      (c1.slug, 1) ∈ (scanAll probe comps).2) := by
  refine ⟨?_, ?_, ?_, ?_⟩
  · intro c k j hk hnf hj
    exact scanTasks_notFound_le (probe c) c (List.range' 1 MAX_TASKS_TO_CHECK)
      (List.pairwise_lt_range' 1 MAX_TASKS_TO_CHECK) k j hnf
      (scanAll_trace_mem probe comps c k hk).1
      (scanAll_trace_mem probe comps c j hj).1
  · intro c k hk hff hk15
    have hnext : k + 1 ∈ (scanComp probe c).2 :=
      scanTasks_fetchFail_next (probe c) c MAX_TASKS_TO_CHECK 1 k
        (scanAll_trace_mem probe comps c k hk).1 hff
        (by simp only [MAX_TASKS_TO_CHECK] at hk15 ⊢; omega)
    exact (scanAll_trace_mem probe comps c k hk).2 (k + 1) hnext
  · intro a h
    exact scanAll_some probe comps a h
  · intro c0 c1 rest2 hcomps hnone
    subst hcomps
    simp only [scanAll, hnone]
    apply List.mem_append_right
    cases hr1 : (scanComp probe c1.slug).1 with
    | some a =>
      simp only [scanAll, hr1]
      apply List.mem_map_of_mem
      show 1 ∈ (scanTasksFrom (probe c1.slug) c1.slug (1 :: List.range' 2 14)).2
      exact scanTasks_head_mem (probe c1.slug) c1.slug 1 (List.range' 2 14)
    | none =>
      simp only [scanAll, hr1]
      apply List.mem_append_left
      apply List.mem_map_of_mem
      show 1 ∈ (scanTasksFrom (probe c1.slug) c1.slug (1 :: List.range' 2 14)).2
      exact scanTasks_head_mem (probe c1.slug) c1.slug 1 (List.range' 2 14)

/-- Witness for C8: one competition where task 1 fails transiently and
task 2 is the in-progress page. -/
theorem c8_probe_control_flow_witness :
    ∃ c k pre,
      (⟨"alpha-comp", "2"⟩ : ActiveTask) = ⟨c, natToString k⟩ ∧
      (scanAll sampleProbe [⟨"alpha-comp", "Alpha Comp"⟩]).2 = pre ++ [(c, k)] ∧
      probeHit sampleProbe c k = true ∧
      ∀ p ∈ pre, probeHit sampleProbe p.1 p.2 = false :=
  (c8_probe_control_flow sampleProbe [⟨"alpha-comp", "Alpha Comp"⟩]).2.2.1
    ⟨"alpha-comp", "2"⟩ (by decide)

/-! ### Claim C9: competition-list cache idempotence -/

/-- Claim C9: once a call to the competition lister has populated the
cache, any later call (whatever its own network outcome) returns the same
list, leaves the cache unchanged, and performs no network fetch. -/
theorem c9_cache_idempotence (o o2 : RootOutcome) (l : List Competition)
    (h : (fetch_competitions o none).2.1 = some l) :
    fetch_competitions o2 (some l) = ((fetch_competitions o none).1, some l, false) := by
  cases o with
  | failure => simp [fetch_competitions] at h
  | success anchors =>
    simp only [fetch_competitions] at h ⊢
    injection h with h
    rw [← h]

/-- Witness for C9: a populating call on a one-anchor root page, followed
by a cached call whose own fetch would fail. -/
theorem c9_cache_idempotence_witness :
    fetch_competitions RootOutcome.failure
        (some (competitionsOf [⟨"alpha-cup", "alpha cup"⟩])) =
      ((fetch_competitions (RootOutcome.success [⟨"alpha-cup", "alpha cup"⟩]) none).1,
        some (competitionsOf [⟨"alpha-cup", "alpha cup"⟩]), false) :=
  c9_cache_idempotence (RootOutcome.success [⟨"alpha-cup", "alpha cup"⟩])
    RootOutcome.failure (competitionsOf [⟨"alpha-cup", "alpha cup"⟩]) rfl

/-! ### Claim C2: the "no active task" result is cached but never served -/

/-- Claim C2 (code bug): after a full-scan miss has written
`{data: none, timestamp: 1000}` to the cache, a call at time 1100 — well
inside the 300-second TTL — performs a fresh network probe (the trace is
nonempty) instead of returning the cached absent result, because the
freshness check requires a truthy cached value. -/
theorem c2_absent_cache_not_served :
    (find_active_task (fun _ _ => ProbeResult.notFound) [⟨"comp-one", "Comp One"⟩]
        1000 ⟨none, 0⟩ =
      (none, ⟨none, 1000⟩, [("comp-one", 1)])) ∧
    1100 - 1000 < AUTO_SEARCH_CACHE_DURATION ∧
    (find_active_task (fun _ _ => ProbeResult.notFound) [⟨"comp-one", "Comp One"⟩]
        1100 ⟨none, 1000⟩ =
      (none, ⟨none, 1100⟩, [("comp-one", 1)])) := by
  refine ⟨by decide, by decide, by decide⟩

end PT
